import Mathlib

/-!
Verification of the asynchronous submission pipeline of `app.py`
(Vegavath_Ignition): the GitHub upsert helper `github_upload`, the staging
walk performed by the upload worker, the worker's event protocol
(`process_upload`), and the route-level state machine (`verify`, `upload`,
`events`, `reset_team`).  Network and filesystem effects are embedded
shallowly: HTTP responses are inputs, the filesystem is an explicit value,
and the worker's event stream is the list of events `put` on its queue.
-/

namespace App

/-! ## Remote Store Client (`github_upload`, app.py lines 44-57) -/

/-- Result of `requests.get` on the contents URL, as consumed by
`github_upload`: the HTTP status and the `"sha"` field of the JSON body. -/
structure GetResponse where
  status : Nat
  sha : String
deriving DecidableEq, Repr

/-- Result of `requests.put` on the contents URL: HTTP status and body text. -/
structure PutResponse where
  status : Nat
  text : String
deriving DecidableEq, Repr

/-- The JSON payload `github_upload` sends with its write request.
`sha = none` models the `"sha"` key being absent from the payload. -/
structure PutPayload where
  message : String
  content : String
  sha : Option String
deriving DecidableEq, Repr

/-- The triple `github_upload` returns: `(ok, status_code, text)`. -/
structure UpsertResult where
  ok : Bool
  status : Nat
  text : String
deriving DecidableEq, Repr

/-- Python truthiness of an `Optional[str]`: `None` and `""` are falsy. -/
def strOptTruthy : Option String → Bool
  | none => false
  | some s => s ≠ ""

/-- Embedding of `github_upload(local_file_path, github_repo_path)`.
The local file's base64-encoded content is `content`; the GET response is
the input `g`; the PUT response is given by the oracle `putRes` as a
function of the payload actually sent.  Returns the payload of the write
request together with the returned triple
`(put_res.status_code in (200, 201), put_res.status_code, put_res.text)`.
Mirrors: `sha = get_res.json()["sha"] if get_res.status_code == 200 else
None`, `if sha: payload["sha"] = sha`. -/
def github_upload (content : String) (github_repo_path : String)
    (g : GetResponse) (putRes : PutPayload → PutResponse) :
    PutPayload × UpsertResult :=
  let sha : Option String := if g.status = 200 then some g.sha else none
  let payload0 : PutPayload :=
    { message := "Upload " ++ github_repo_path, content := content, sha := none }
  let payload := if strOptTruthy sha then { payload0 with sha := sha } else payload0
  let r := putRes payload
  (payload, { ok := r.status == 200 || r.status == 201, status := r.status, text := r.text })

/-! ## Staging walk (`os.walk` in `process_upload`, app.py lines 81-83)

A staged directory is a list of entries; the list order is the order in
which the operating system enumerates the directory (the order `os.walk`
uses — the code never sorts it). -/

/-- One filesystem entry: a plain file or a subdirectory with its entries. -/
inductive Entry where
  | file (name : String)
  | dir (name : String) (children : List Entry)

/-- `os.path.join` with `/`, with the convention that the staging root is
`""` (the worker immediately strips the root with `safe_relpath`). -/
def pjoin (root name : String) : String :=
  if root = "" then name else root ++ "/" ++ name

/-- The file names of one directory level, in entry order (the `files`
component of one `os.walk` triple), joined onto `root`. -/
def dirFiles (root : String) : List Entry → List String
  | [] => []
  | .file n :: es => pjoin root n :: dirFiles root es
  | .dir _ _ :: es => dirFiles root es

mutual

/-- Recursion of `os.walk` into one entry: nothing for a plain file (its
own level already listed it), the full walk for a subdirectory. -/
def walkEntry (root : String) : Entry → List String
  | .file _ => []
  | .dir n cs => dirFiles (pjoin root n) cs ++ walkGo (pjoin root n) cs

/-- Recursion of `os.walk` into the subdirectories of one level, in entry
order, collecting each subtree's files. -/
def walkGo (root : String) : List Entry → List String
  | [] => []
  | e :: es => walkEntry root e ++ walkGo root es

end

/-- `all_files` as built by `process_upload`: for each directory visited by
`os.walk` (top-down, entries in stored order), its files, then the
recursion into its subdirectories. -/
def walkFiles (root : String) (cs : List Entry) : List String :=
  dirFiles root cs ++ walkGo root cs

mutual

/-- All file paths of a tree, in stored entry order with files and
directories interleaved (the raw content of the tree, independent of the
walk's files-first visiting order).  Used to compare the walk against the
set of files it should enumerate. -/
def entryPaths (root : String) : Entry → List String
  | .file n => [pjoin root n]
  | .dir n cs => listPaths (pjoin root n) cs

/-- All file paths of a list of entries, in stored order. -/
def listPaths (root : String) : List Entry → List String
  | [] => []
  | e :: es => entryPaths root e ++ listPaths root es

end

/-! ## Worker events (`process_upload`, app.py lines 74-110)

The events a worker `put`s on its queue.  The per-file upsert outcome is
abstracted as an oracle `ups : String → UpsertResult` giving, for each
remote path, the triple that the corresponding `github_upload` call
returned (app.py line 95). -/

/-- One progress event, before JSON serialization: the event name and its
structured payload (app.py `json_event` calls). -/
inductive Event where
  | info (msg : String)
  | upload_start (file : String) (index : Nat) (total : Nat)
  | upload_done (file : String) (status : Nat)
  | upload_error (file : String) (status : Nat) (response : String)
  | finished (msg : String)
  | closed (msg : String)
deriving DecidableEq, Repr

/-- Whether an event is a `closed` event. -/
def isClosedEv : Event → Bool
  | .closed _ => true
  | _ => false

/-- `gh_path = f"submissions/{team}/{rel}"` (app.py line 92). -/
def ghPath (team rel : String) : String :=
  "submissions/" ++ team ++ "/" ++ rel

/-- The two events emitted for the file at 1-based index `i` with relative
path `rel`: `upload_start`, then `upload_done` on success or `upload_error`
on failure (app.py lines 94-100). -/
def fileEvents (team : String) (total : Nat) (ups : String → UpsertResult)
    (i : Nat) (rel : String) : List Event :=
  let gh := ghPath team rel
  let r := ups gh
  [Event.upload_start gh i total,
   if r.ok then Event.upload_done gh r.status
   else Event.upload_error gh r.status r.text]

/-- The events of the `for i, file_path in enumerate(all_files, start=1)`
loop, starting at index `i` (app.py lines 90-103). -/
def uploadLoop (team : String) (total : Nat) (ups : String → UpsertResult) :
    Nat → List String → List Event
  | _, [] => []
  | i, rel :: rest => fileEvents team total ups i rel ++ uploadLoop team total ups (i + 1) rest

/-- The events of the `try` block of `process_upload`, run to completion:
one `info`, the per-file loop from index 1, one `finished`
(app.py lines 79-105). -/
def bodyEvents (team : String) (files : List String) (ups : String → UpsertResult) :
    List Event :=
  Event.info (toString files.length ++ " files to upload.")
    :: uploadLoop team files.length ups 1 files
    ++ [Event.finished "All uploads completed."]

/-- Every event the worker puts on its queue.  `abort = none` is a normal
run; `abort = some k` models an internal exception interrupting the `try`
block after `k` events were emitted, in which case the `finally` block
still runs.  Either way the `finally` block appends the `closed` event
(app.py lines 107-110). -/
def workerEvents (team : String) (files : List String)
    (ups : String → UpsertResult) (abort : Option Nat) : List Event :=
  (match abort with
    | none => bodyEvents team files ups
    | some k => (bodyEvents team files ups).take k)
    ++ [Event.closed "Upload thread ended."]

/-- `shutil.rmtree(temp_dir, ignore_errors=True)` over a filesystem modelled
as the list of existing paths: when the deletion succeeds (`ok = true`) the
directory and everything below it disappear; when the filesystem reports an
error (`ok = false`) the error is swallowed and the paths remain
(app.py line 109). -/
def rmtree (fs : List String) (d : String) (ok : Bool) : List String :=
  if ok then fs.filter (fun p => !(p == d || (d ++ "/").data.isPrefixOf p.data)) else fs

/-- A finished worker run: the events put on the queue and the filesystem
as it is at the instant the `closed` event is put (the `finally` block
deletes `temp_dir` before emitting `closed`, app.py lines 107-110). -/
structure WorkerRun where
  events : List Event
  fsAtClosed : List String
deriving DecidableEq, Repr

/-- One whole `process_upload` run: the try-block events (possibly cut
short by an internal error), then cleanup — best-effort `rmtree` of the
staging directory whose success is the input `rmtreeOk` — then `closed`. -/
def runWorker (team : String) (files : List String) (ups : String → UpsertResult)
    (abort : Option Nat) (fs : List String) (temp_dir : String) (rmtreeOk : Bool) :
    WorkerRun :=
  { events := workerEvents team files ups abort
    fsAtClosed := rmtree fs temp_dir rmtreeOk }

/-! ## Routes and process-wide state (app.py lines 66-67, 115-213) -/

/-- Update of a string-keyed dict (`d[k] = v`). -/
def dictSet {α : Type} (m : String → Option α) (k : String) (v : α) :
    String → Option α :=
  fun x => if x = k then some v else m x

/-- The registry operation performed at app.py lines 165-166:
`q = queue.Queue(); upload_queues[upload_id] = q`.  A channel is modelled
by its current contents; a fresh channel is empty.  The dict assignment is
unconditional: there is no check for an already-registered id. -/
def registerChannel (qs : String → Option (List Event)) (id : String) :
    String → Option (List Event) :=
  dictSet qs id []

/-- The Flask session cookie contents that the routes read and write. -/
inductive Session where
  | empty
  | team (t : String)
  | admin
deriving DecidableEq, Repr

/-- An uploaded archive: corrupt (`zipfile.ZipFile` raises `BadZipFile`),
or well-formed with the given member relative paths. -/
inductive Archive where
  | corrupt
  | ok (members : List String)
deriving DecidableEq, Repr

/-- What an HTTP route handler returns to the client. -/
inductive RouteOutcome where
  | wrongPin
  | alreadySubmitted
  | adminRedirect
  | redirectUpload
  | redirectVerify
  | redirectSuccess (upload_id : String)
  | serverError
  | notFound
  | stream
deriving DecidableEq, Repr

/-- The observable steps of the upload-accept path, in execution order. -/
inductive Action where
  | makeStagingDir
  | saveArchive
  | extractArchive
  | removeArchive
  | setLock (team : String)
  | persistState
  | registerQueue (id : String)
  | launchWorker (id : String)
  | clearSession
deriving DecidableEq, Repr

/-- The process-wide mutable state the routes share: the filesystem (as the
list of existing paths), the persisted `upload_state` dict, the
`upload_queues` registry, and the worker threads launched so far
(upload_id, team, temp_dir). -/
structure SysState where
  fs : List String
  upload_state : String → Option Bool
  queues : String → Option (List Event)
  workers : List (String × String × String)

/-- `if upload_state.get(team):` — Python truthiness of the dict lookup
(missing key and `False` are falsy). -/
def lockTruthy (st : SysState) (team : String) : Bool :=
  match st.upload_state team with
  | some b => b
  | none => false

/-- The POST branch of `verify` (app.py lines 117-137).  `pinOk` abstracts
`stored_hash and bcrypt.checkpw(pin, stored_hash.encode())`.  Returns the
session produced for this client and the outcome; the shared state is not
written by this route. -/
def verify_post (st : SysState) (team : String) (pinOk : Bool) :
    Session × RouteOutcome :=
  if pinOk then
    if team = "VEGAVATH ADS" then (Session.admin, RouteOutcome.adminRedirect)
    else if lockTruthy st team then (Session.empty, RouteOutcome.alreadySubmitted)
    else (Session.team team, RouteOutcome.redirectUpload)
  else (Session.empty, RouteOutcome.wrongPin)

/-- What one call of the upload POST handler produced. -/
structure UploadResult where
  state : SysState
  sess : Session
  outcome : RouteOutcome
  trace : List Action

/-- The staging directory name `f"temp_{team}_{upload_id}"`
(app.py line 151). -/
def tempDirName (team upload_id : String) : String :=
  "temp_" ++ team ++ "_" ++ upload_id

/-- The POST branch of `upload` (app.py lines 142-170), step by step:
make `temp_dir`, save the archive to `temp_dir/sub.zip`, extract it
(a corrupt archive raises there and the exception escapes the handler as a
server error, leaving the state written so far), remove the zip, set and
persist the Submission Lock, register the channel, start the worker
thread, clear the session, redirect.  With no team in the session the
handler redirects to `verify`. -/
def upload_post (st : SysState) (sess : Session) (upload_id : String)
    (ar : Archive) : UploadResult :=
  match sess with
  | Session.team t =>
    let temp := tempDirName t upload_id
    let zip := temp ++ "/sub.zip"
    let fs2 := st.fs ++ [temp, zip]
    match ar with
    | Archive.corrupt =>
      { state := { st with fs := fs2 }, sess := sess,
        outcome := RouteOutcome.serverError,
        trace := [Action.makeStagingDir, Action.saveArchive] }
    | Archive.ok members =>
      let fs3 := fs2 ++ members.map (fun m => temp ++ "/" ++ m)
      let fs4 := fs3.filter (fun p => p ≠ zip)
      { state :=
          { fs := fs4
            upload_state := dictSet st.upload_state t true
            queues := registerChannel st.queues upload_id
            workers := st.workers ++ [(upload_id, t, temp)] }
        sess := Session.empty
        outcome := RouteOutcome.redirectSuccess upload_id
        trace := [Action.makeStagingDir, Action.saveArchive, Action.extractArchive,
                  Action.removeArchive, Action.setLock t, Action.persistState,
                  Action.registerQueue upload_id, Action.launchWorker upload_id,
                  Action.clearSession] }
  | _ =>
    { state := st, sess := sess, outcome := RouteOutcome.redirectVerify, trace := [] }

/-- `reset_team` (app.py lines 207-213): sets the lock entry to `False`. -/
def reset_team (st : SysState) (team : String) : SysState :=
  { st with upload_state := dictSet st.upload_state team false }

/-- The guard of the `events` route (app.py lines 180-183): unknown ids get
a 404, registered ids get the event stream. -/
def events_route (st : SysState) (upload_id : String) : RouteOutcome :=
  match st.queues upload_id with
  | none => RouteOutcome.notFound
  | some _ => RouteOutcome.stream

/-- The stream generator (app.py lines 187-192) run against the queue
contents `evs` with no further producer: the events delivered to the
client, through the first `closed` event inclusive; `none` when the
generator exhausts the queue without meeting `closed` and blocks forever
in `q.get()`. -/
def streamEvents : List Event → Option (List Event)
  | [] => none
  | e :: rest =>
    if isClosedEv e then some [e]
    else (streamEvents rest).map (fun l => e :: l)

/-- What the stream generator leaves on the queue: the suffix after the
first `closed` event, or nothing when it drains the whole queue. -/
def streamRemainder : List Event → List Event
  | [] => []
  | e :: rest => if isClosedEv e then rest else streamRemainder rest

/-- One route invocation, seen as a transition of the shared state. -/
inductive SysOp where
  | verifyOp (team : String) (pinOk : Bool)
  | uploadOp (sess : Session) (upload_id : String) (ar : Archive)
  | resetOp (team : String)
  | streamOp (upload_id : String)

/-- The effect of each route on the shared state: `verify` only reads it,
`upload` is `upload_post`, `reset_team` clears a lock entry, and the
stream endpoint consumes events from the addressed queue (it never deletes
the registry entry itself). -/
def applyOp (st : SysState) : SysOp → SysState
  | SysOp.verifyOp _ _ => st
  | SysOp.uploadOp sess uid ar => (upload_post st sess uid ar).state
  | SysOp.resetOp t => reset_team st t
  | SysOp.streamOp id =>
    match st.queues id with
    | none => st
    | some evs => { st with queues := dictSet st.queues id (streamRemainder evs) }

/-- One whole submission attempt by one client: `verify` with the team
credentials, then — only when `verify` redirected to the upload page — the
upload POST with the session `verify` produced. -/
def attemptSubmit (st : SysState) (team : String) (pinOk : Bool)
    (upload_id : String) (ar : Archive) : SysState × RouteOutcome :=
  match verify_post st team pinOk with
  | (sess, RouteOutcome.redirectUpload) =>
    let r := upload_post st sess upload_id ar
    (r.state, r.outcome)
  | (_, out) => (st, out)

/-- Scan of an action trace: every `launchWorker` is preceded by some
`setLock` (`seen` records whether a `setLock` was already passed). -/
def lockBeforeLaunchAux (seen : Bool) : List Action → Bool
  | [] => true
  | Action.setLock _ :: rest => lockBeforeLaunchAux true rest
  | Action.launchWorker _ :: rest => seen && lockBeforeLaunchAux seen rest
  | _ :: rest => lockBeforeLaunchAux seen rest

/-- In this trace, a Submission Lock write strictly precedes every worker
launch. -/
def lockBeforeLaunch (tr : List Action) : Bool :=
  lockBeforeLaunchAux false tr

/-! ## Helper lemmas on the worker's event list -/

theorem fileEvents_length (team : String) (total : Nat) (ups : String → UpsertResult)
    (i : Nat) (rel : String) : (fileEvents team total ups i rel).length = 2 := rfl

theorem uploadLoop_eq_enumFrom (team : String) (total : Nat)
    (ups : String → UpsertResult) (files : List String) :
    ∀ i : Nat, uploadLoop team total ups i files
      = (List.enumFrom i files).flatMap (fun p => fileEvents team total ups p.1 p.2) := by
  induction files with
  | nil => intro i; rfl
  | cons rel rest ih =>
    intro i
    simp only [uploadLoop, List.enumFrom, List.flatMap_cons, ih (i + 1)]

theorem uploadLoop_length (team : String) (total : Nat)
    (ups : String → UpsertResult) (files : List String) :
    ∀ i : Nat, (uploadLoop team total ups i files).length = 2 * files.length := by
  induction files with
  | nil => intro i; rfl
  | cons rel rest ih =>
    intro i
    simp only [uploadLoop, List.length_append, fileEvents_length, ih (i + 1),
      List.length_cons]
    omega

theorem fileEvents_no_closed (team : String) (total : Nat)
    (ups : String → UpsertResult) (i : Nat) (rel : String) :
    (fileEvents team total ups i rel).countP isClosedEv = 0 := by
  simp only [fileEvents]
  cases (ups (ghPath team rel)).ok <;>
    simp [List.countP_cons, List.countP_nil, isClosedEv]

theorem uploadLoop_no_closed (team : String) (total : Nat)
    (ups : String → UpsertResult) (files : List String) :
    ∀ i : Nat, (uploadLoop team total ups i files).countP isClosedEv = 0 := by
  induction files with
  | nil => intro i; rfl
  | cons rel rest ih =>
    intro i
    simp only [uploadLoop, List.countP_append, fileEvents_no_closed, ih (i + 1)]

theorem bodyEvents_no_closed (team : String) (files : List String)
    (ups : String → UpsertResult) :
    (bodyEvents team files ups).countP isClosedEv = 0 := by
  simp [bodyEvents, List.countP_cons, List.countP_append, uploadLoop_no_closed,
    isClosedEv]

/-! ## Claim theorems -/

/-- C1: for every submission whose file list has N files, the worker emits
exactly one `info` event, then, for each index i from 1 to N in file-list
order, exactly one `upload_start` with that index and total N immediately
followed by exactly one `upload_done` or `upload_error` for the same file,
then exactly one `finished`, then exactly one `closed`, with no other
events interleaved: the whole event list equals that sequence and has
length 2N + 3. -/
theorem worker_emits_exact_event_sequence (team : String) (files : List String)
    (ups : String → UpsertResult) :
    workerEvents team files ups none
      = Event.info (toString files.length ++ " files to upload.")
        :: ((List.enumFrom 1 files).flatMap
              (fun p => fileEvents team files.length ups p.1 p.2)
            ++ [Event.finished "All uploads completed.",
                Event.closed "Upload thread ended."])
    ∧ (workerEvents team files ups none).length = 2 * files.length + 3 := by
  constructor
  · simp [workerEvents, bodyEvents, uploadLoop_eq_enumFrom]
  · simp [workerEvents, bodyEvents, uploadLoop_length]

/-- C2: on every exit path of the worker — a complete run (`abort = none`)
or one interrupted by an internal error after any number of emitted events
(`abort = some k`, in which case `finished` may be absent) — the `closed`
event is the last event put on the channel, nothing follows it, and it is
emitted exactly once. -/
theorem closed_is_always_last_event (team : String) (files : List String)
    (ups : String → UpsertResult) (abort : Option Nat) :
    (workerEvents team files ups abort).getLast?
        = some (Event.closed "Upload thread ended.")
    ∧ (workerEvents team files ups abort).countP isClosedEv = 1 := by
  constructor
  · exact List.getLast?_concat _
  · have h0 : (match abort with
        | none => bodyEvents team files ups
        | some k => (bodyEvents team files ups).take k).countP isClosedEv = 0 := by
      cases abort with
      | none =>
        show (bodyEvents team files ups).countP isClosedEv = 0
        exact bodyEvents_no_closed team files ups
      | some k =>
        show ((bodyEvents team files ups).take k).countP isClosedEv = 0
        have h1 := List.Sublist.countP_le isClosedEv
          (List.take_sublist k (bodyEvents team files ups))
        have h2 := bodyEvents_no_closed team files ups
        omega
    simp only [workerEvents, List.countP_append, h0,
      List.countP_cons, List.countP_nil, isClosedEv]
    simp

theorem uploadLoop_drop (team : String) (total : Nat) (ups : String → UpsertResult) :
    ∀ (files : List String) (k i : Nat) (hk : k < files.length),
      (uploadLoop team total ups i files).drop (2 * k)
        = fileEvents team total ups (i + k) (files.get ⟨k, hk⟩)
          ++ uploadLoop team total ups (i + k + 1) (files.drop (k + 1)) := by
  intro files
  induction files with
  | nil => intro k i hk; exact absurd hk (by simp)
  | cons f fs ih =>
    intro k i hk
    cases k with
    | zero => simp [uploadLoop, List.get]
    | succ k =>
      have hk' : k < fs.length := Nat.lt_of_succ_lt_succ hk
      have e1 : i + (k + 1) = (i + 1) + k := by omega
      show (fileEvents team total ups i f ++ uploadLoop team total ups (i + 1) fs).drop
            (2 * (k + 1))
          = fileEvents team total ups (i + (k + 1)) (fs.get ⟨k, hk'⟩)
            ++ uploadLoop team total ups (i + (k + 1) + 1) (fs.drop (k + 1))
      have h2 : 2 * (k + 1) = (fileEvents team total ups i f).length + 2 * k := by
        rw [fileEvents_length]; omega
      rw [e1, h2, List.drop_append]
      exact ih k (i + 1) hk'

/-- C3: if the upsert for the file at (0-based) position k fails, the worker
emits `upload_error` for it right after its `upload_start` and still
processes every later file in order and still emits `finished` and
`closed`: the event list from that file on is exactly the failed pair,
then the loop over the remaining files, then `finished`, then `closed`. -/
theorem upsert_failure_does_not_abort (team : String) (files : List String)
    (ups : String → UpsertResult) (k : Nat) (hk : k < files.length)
    (hfail : (ups (ghPath team (files.get ⟨k, hk⟩))).ok = false) :
    (workerEvents team files ups none).drop (1 + 2 * k)
      = Event.upload_start (ghPath team (files.get ⟨k, hk⟩)) (k + 1) files.length
        :: Event.upload_error (ghPath team (files.get ⟨k, hk⟩))
            (ups (ghPath team (files.get ⟨k, hk⟩))).status
            (ups (ghPath team (files.get ⟨k, hk⟩))).text
        :: (uploadLoop team files.length ups (k + 2) (files.drop (k + 1))
            ++ [Event.finished "All uploads completed.",
                Event.closed "Upload thread ended."]) := by
  have hlen : 2 * k ≤ (uploadLoop team files.length ups 1 files).length := by
    rw [uploadLoop_length]; omega
  have hstep : workerEvents team files ups none
      = Event.info (toString files.length ++ " files to upload.")
        :: (uploadLoop team files.length ups 1 files
            ++ [Event.finished "All uploads completed.",
                Event.closed "Upload thread ended."]) := by
    simp [workerEvents, bodyEvents]
  rw [hstep]
  rw [Nat.add_comm 1 (2 * k)]
  rw [List.drop_succ_cons]
  rw [List.drop_append_of_le_length hlen]
  rw [uploadLoop_drop team files.length ups files k 1 hk]
  have e1 : 1 + k = k + 1 := by omega
  rw [e1]
  rw [show k + 1 + 1 = k + 2 from rfl]
  simp only [fileEvents, hfail]
  simp

/-- Witness for C3: two files, both upserts fail with 422; from the first
file on, the events are its failed pair, the second file's failed pair,
`finished`, `closed`. -/
theorem upsert_failure_does_not_abort_witness :
    0 < (["a.txt", "b.txt"] : List String).length
    ∧ (workerEvents "teamX" ["a.txt", "b.txt"]
          (fun _ => ⟨false, 422, "Unprocessable"⟩) none).drop (1 + 2 * 0)
        = [Event.upload_start "submissions/teamX/a.txt" 1 2,
           Event.upload_error "submissions/teamX/a.txt" 422 "Unprocessable",
           Event.upload_start "submissions/teamX/b.txt" 2 2,
           Event.upload_error "submissions/teamX/b.txt" 422 "Unprocessable",
           Event.finished "All uploads completed.",
           Event.closed "Upload thread ended."] := by
  refine ⟨by decide, ?_⟩
  have h := upsert_failure_does_not_abort "teamX" ["a.txt", "b.txt"]
    (fun _ => ⟨false, 422, "Unprocessable"⟩) 0 (by decide) rfl
  exact h.trans (by decide)

/-- C4 counterexample: with a read response of status 200 whose revision
marker is the empty string, the write payload carries no marker — the
claimed equivalence "marker included iff the read returned 200" fails,
because `if sha:` also drops an empty (falsy) marker string. -/
theorem upsert_marker_iff_200_counterexample :
    ¬ (((github_upload "Q29udGVudA==" "submissions/teamX/a.txt"
          ⟨200, ""⟩ (fun _ => ⟨200, "ok"⟩)).1.sha.isSome = true)
        ↔ (200 : Nat) = 200) := by
  decide

/-- C4 amended: the upsert result is success iff the write status is 200 or
201; the result always carries the write status and the raw response body;
and the write payload includes the revision marker iff the read returned
status 200 and the marker string is non-empty (the code drops a falsy,
i.e. empty, marker), in which case the marker sent is the one read. -/
theorem upsert_result_and_marker (content path : String) (g : GetResponse)
    (putRes : PutPayload → PutResponse) :
    ((github_upload content path g putRes).2.ok = true
        ↔ ((putRes (github_upload content path g putRes).1).status = 200
           ∨ (putRes (github_upload content path g putRes).1).status = 201))
    ∧ (github_upload content path g putRes).2.status
        = (putRes (github_upload content path g putRes).1).status
    ∧ (github_upload content path g putRes).2.text
        = (putRes (github_upload content path g putRes).1).text
    ∧ (github_upload content path g putRes).1.sha
        = (if g.status = 200 ∧ g.sha ≠ "" then some g.sha else none) := by
  simp only [github_upload, strOptTruthy]
  refine ⟨?_, ?_, ?_, ?_⟩
  · split_ifs <;> simp [Bool.or_eq_true, beq_iff_eq]
  · trivial
  · trivial
  · split_ifs with h1 <;> simp_all

/-- C5: (i) a submission attempt by an owner whose Submission Lock is
already true (and who is not the disguised admin team) is rejected at
verification — the shared state, in particular the list of launched
workers, is unchanged and the outcome is the already-submitted error (or
the wrong-PIN error); (ii) on every execution of the upload POST handler,
any worker launch in its action trace is strictly preceded by the
Submission Lock write. -/
theorem lock_blocks_repeat_and_precedes_worker (st : SysState) (team : String)
    (pinOk : Bool) (uid : String) (ar : Archive)
    (hlock : st.upload_state team = some true)
    (hadmin : team ≠ "VEGAVATH ADS") :
    ((attemptSubmit st team pinOk uid ar).1 = st
      ∧ ((attemptSubmit st team pinOk uid ar).2 = RouteOutcome.alreadySubmitted
         ∨ (attemptSubmit st team pinOk uid ar).2 = RouteOutcome.wrongPin)
      ∧ (attemptSubmit st team pinOk uid ar).1.workers = st.workers)
    ∧ (∀ (st2 : SysState) (sess : Session) (uid2 : String) (ar2 : Archive),
        lockBeforeLaunch (upload_post st2 sess uid2 ar2).trace = true) := by
  constructor
  · cases pinOk <;>
      simp [attemptSubmit, verify_post, lockTruthy, hlock, hadmin]
  · intro st2 sess uid2 ar2
    cases sess with
    | team t => cases ar2 <;> rfl
    | empty => rfl
    | admin => rfl

/-- Witness for C5: a state whose lock is true for `teamX`; the attempt is
rejected with the already-submitted error and launches nothing. -/
theorem lock_blocks_repeat_witness :
    (SysState.mk [] (fun t => if t = "teamX" then some true else none)
        (fun _ => none) []).upload_state "teamX" = some true
    ∧ "teamX" ≠ "VEGAVATH ADS"
    ∧ (((attemptSubmit
          (SysState.mk [] (fun t => if t = "teamX" then some true else none)
            (fun _ => none) [])
          "teamX" true "u1" (Archive.ok ["a.txt"])).1
        = SysState.mk [] (fun t => if t = "teamX" then some true else none)
            (fun _ => none) []
      ∧ ((attemptSubmit
            (SysState.mk [] (fun t => if t = "teamX" then some true else none)
              (fun _ => none) [])
            "teamX" true "u1" (Archive.ok ["a.txt"])).2
          = RouteOutcome.alreadySubmitted
        ∨ (attemptSubmit
            (SysState.mk [] (fun t => if t = "teamX" then some true else none)
              (fun _ => none) [])
            "teamX" true "u1" (Archive.ok ["a.txt"])).2
          = RouteOutcome.wrongPin)
      ∧ (attemptSubmit
          (SysState.mk [] (fun t => if t = "teamX" then some true else none)
            (fun _ => none) [])
          "teamX" true "u1" (Archive.ok ["a.txt"])).1.workers
        = (SysState.mk [] (fun t => if t = "teamX" then some true else none)
            (fun _ => none) []).workers)
      ∧ (∀ (st2 : SysState) (sess : Session) (uid2 : String) (ar2 : Archive),
          lockBeforeLaunch (upload_post st2 sess uid2 ar2).trace = true)) :=
  ⟨rfl, by decide,
    lock_blocks_repeat_and_precedes_worker
      (SysState.mk [] (fun t => if t = "teamX" then some true else none)
        (fun _ => none) [])
      "teamX" true "u1" (Archive.ok ["a.txt"]) rfl (by decide)⟩

/-- C6 counterexample: a corrupt archive does fail the request before any
worker is launched, but partial state IS created — afterwards the staging
directory and the saved archive file are still on disk, refuting the
claimed "no staging files remain". -/
theorem corrupt_archive_leaves_staging_counterexample :
    (upload_post (SysState.mk [] (fun _ => none) (fun _ => none) [])
        (Session.team "teamX") "u1" Archive.corrupt).outcome
      = RouteOutcome.serverError
    ∧ "temp_teamX_u1" ∈ (upload_post (SysState.mk [] (fun _ => none) (fun _ => none) [])
        (Session.team "teamX") "u1" Archive.corrupt).state.fs
    ∧ "temp_teamX_u1/sub.zip" ∈ (upload_post (SysState.mk [] (fun _ => none) (fun _ => none) [])
        (Session.team "teamX") "u1" Archive.corrupt).state.fs := by
  refine ⟨rfl, ?_, ?_⟩ <;> decide

/-- C6 amended: on a corrupt archive the upload handler raises out of the
request (a server error) before the worker stage: no worker thread is
recorded, the channel registry is untouched, the Submission Lock is not
set; however the staging directory and the saved `sub.zip` remain on
disk (nothing cleans them up on this path). -/
theorem corrupt_archive_fails_before_launch (st : SysState) (t uid : String) :
    (upload_post st (Session.team t) uid Archive.corrupt).outcome
      = RouteOutcome.serverError
    ∧ (upload_post st (Session.team t) uid Archive.corrupt).state.workers = st.workers
    ∧ (upload_post st (Session.team t) uid Archive.corrupt).state.queues = st.queues
    ∧ (upload_post st (Session.team t) uid Archive.corrupt).state.upload_state
        = st.upload_state
    ∧ (upload_post st (Session.team t) uid Archive.corrupt).trace
        = [Action.makeStagingDir, Action.saveArchive]
    ∧ (upload_post st (Session.team t) uid Archive.corrupt).state.fs
        = st.fs ++ [tempDirName t uid, tempDirName t uid ++ "/sub.zip"] :=
  ⟨rfl, rfl, rfl, rfl, rfl, rfl⟩

/-- C9 counterexample: when the best-effort `shutil.rmtree` fails (errors
are swallowed by `ignore_errors=True`), the staging directory still exists
at the moment the `closed` event is emitted. -/
theorem staging_may_remain_at_closed_counterexample :
    "temp_teamX_u1" ∈ (runWorker "teamX" ["a.txt"] (fun _ => ⟨true, 201, "created"⟩)
        none ["temp_teamX_u1", "temp_teamX_u1/a.txt"] "temp_teamX_u1" false).fsAtClosed
    ∧ (runWorker "teamX" ["a.txt"] (fun _ => ⟨true, 201, "created"⟩)
        none ["temp_teamX_u1", "temp_teamX_u1/a.txt"] "temp_teamX_u1" false).events.getLast?
      = some (Event.closed "Upload thread ended.") := by
  refine ⟨by decide, ?_⟩
  decide

/-- C9 amended: when the recursive deletion succeeds, the filesystem at the
moment `closed` is emitted contains neither the staging directory nor any
path below it. -/
theorem staging_gone_at_closed_when_delete_succeeds (team : String)
    (files : List String) (ups : String → UpsertResult) (abort : Option Nat)
    (fs : List String) (temp_dir : String) (p : String)
    (hp : p ∈ (runWorker team files ups abort fs temp_dir true).fsAtClosed) :
    p ≠ temp_dir ∧ (temp_dir ++ "/").data.isPrefixOf p.data = false := by
  have h := List.of_mem_filter hp
  simp only [Bool.not_eq_true', Bool.or_eq_false_iff, beq_eq_false_iff_ne] at h
  exact h

/-- Witness for C9 amended: with a successful deletion, the surviving path
`other.txt` is neither the staging directory nor below it. -/
theorem staging_gone_at_closed_witness :
    "other.txt" ∈ (runWorker "teamX" ["a.txt"] (fun _ => ⟨true, 201, "created"⟩)
        none ["temp_teamX_u1", "temp_teamX_u1/a.txt", "other.txt"]
        "temp_teamX_u1" true).fsAtClosed
    ∧ ("other.txt" ≠ "temp_teamX_u1"
       ∧ ("temp_teamX_u1" ++ "/").data.isPrefixOf "other.txt".data = false) :=
  ⟨by decide,
    staging_gone_at_closed_when_delete_succeeds "teamX" ["a.txt"]
      (fun _ => ⟨true, 201, "created"⟩) none
      ["temp_teamX_u1", "temp_teamX_u1/a.txt", "other.txt"] "temp_teamX_u1"
      "other.txt" (by decide)⟩

open List in
theorem walkFiles_perm_listPaths : ∀ (root : String) (cs : List Entry),
    (walkFiles root cs).Perm (listPaths root cs)
  | _, [] => List.Perm.refl _
  | root, Entry.file n :: es => by
    have ih := walkFiles_perm_listPaths root es
    show ((pjoin root n :: dirFiles root es) ++ ([] ++ walkGo root es)).Perm
      ([pjoin root n] ++ listPaths root es)
    simpa using ih.cons (pjoin root n)
  | root, Entry.dir n cs' :: es => by
    have ih1 := walkFiles_perm_listPaths (pjoin root n) cs'
    have ih2 := walkFiles_perm_listPaths root es
    show (dirFiles root es
        ++ ((dirFiles (pjoin root n) cs' ++ walkGo (pjoin root n) cs')
            ++ walkGo root es)).Perm
      (listPaths (pjoin root n) cs' ++ listPaths root es)
    calc dirFiles root es
          ++ ((dirFiles (pjoin root n) cs' ++ walkGo (pjoin root n) cs')
              ++ walkGo root es)
        = (dirFiles root es
            ++ (dirFiles (pjoin root n) cs' ++ walkGo (pjoin root n) cs'))
          ++ walkGo root es := (List.append_assoc _ _ _).symm
      _ ~ ((dirFiles (pjoin root n) cs' ++ walkGo (pjoin root n) cs')
            ++ dirFiles root es) ++ walkGo root es :=
          (List.perm_append_comm).append_right _
      _ = (dirFiles (pjoin root n) cs' ++ walkGo (pjoin root n) cs')
            ++ (dirFiles root es ++ walkGo root es) := List.append_assoc _ _ _
      _ ~ listPaths (pjoin root n) cs' ++ listPaths root es :=
          List.Perm.append ih1 ih2

/-- C7 counterexample: two staging trees holding exactly the same files,
stored in different directory-entry orders, walk to different file lists —
and the first walk visits directory `b` before directory `a`.  The walk
order is the stored (filesystem) entry order, not a stable or lexical
order of the file paths themselves. -/
theorem walk_order_not_stable_counterexample :
    (walkFiles "" [Entry.dir "b" [Entry.file "x"], Entry.dir "a" [Entry.file "y"]]).Perm
      (walkFiles "" [Entry.dir "a" [Entry.file "y"], Entry.dir "b" [Entry.file "x"]])
    ∧ walkFiles "" [Entry.dir "b" [Entry.file "x"], Entry.dir "a" [Entry.file "y"]]
        ≠ walkFiles "" [Entry.dir "a" [Entry.file "y"], Entry.dir "b" [Entry.file "x"]]
    ∧ walkFiles "" [Entry.dir "b" [Entry.file "x"], Entry.dir "a" [Entry.file "y"]]
        = ["b/x", "a/y"] := by
  refine ⟨?_, by decide, by decide⟩
  have e1 : walkFiles "" [Entry.dir "b" [Entry.file "x"], Entry.dir "a" [Entry.file "y"]]
      = ["b/x", "a/y"] := by decide
  have e2 : walkFiles "" [Entry.dir "a" [Entry.file "y"], Entry.dir "b" [Entry.file "x"]]
      = ["a/y", "b/x"] := by decide
  rw [e1, e2]
  exact List.Perm.swap "a/y" "b/x" []

/-- C7 amended: `file_list` is the deterministic `os.walk` enumeration of
the staging tree — it contains exactly the staged files, but in the
stored directory-entry order (each level: files first, then recursion into
subdirectories), not a lexically normalized order; and the archive's own
container file `sub.zip` is excluded, because the upload handler deletes
it from the staging directory before the worker is launched. -/
theorem walk_enumerates_staging_and_excludes_container (root : String)
    (cs : List Entry) (st : SysState) (t uid : String) (members : List String) :
    (walkFiles root cs).Perm (listPaths root cs)
    ∧ (tempDirName t uid ++ "/sub.zip")
        ∉ (upload_post st (Session.team t) uid (Archive.ok members)).state.fs := by
  refine ⟨walkFiles_perm_listPaths root cs, ?_⟩
  intro hmem
  have h := List.of_mem_filter hmem
  simp at h

/-- C8 counterexample: registering an id that is already registered does
not fail — `upload_queues[upload_id] = q` silently replaces the existing
channel: afterwards the registry maps the id to the fresh empty channel,
not to the channel it previously held. -/
theorem register_replaces_existing_counterexample :
    registerChannel (fun x => if x = "u1" then some [Event.info "old"] else none) "u1" "u1"
      = some []
    ∧ (fun x => if x = "u1" then some [Event.info "old"] else none) "u1"
      = some [Event.info "old"]
    ∧ registerChannel (fun x => if x = "u1" then some [Event.info "old"] else none) "u1" "u1"
      ≠ (fun x => if x = "u1" then some [Event.info "old"] else none) "u1" := by
  refine ⟨rfl, rfl, by decide⟩

/-- C8 amended: the register operation cannot fail; it unconditionally maps
the id to a fresh empty channel — replacing whatever channel that id held —
and leaves every other id unchanged. -/
theorem register_overwrites_and_preserves_others
    (qs : String → Option (List Event)) (id id2 : String) (h : id2 ≠ id) :
    registerChannel qs id id = some []
    ∧ registerChannel qs id id2 = qs id2 := by
  constructor
  · simp [registerChannel, dictSet]
  · simp [registerChannel, dictSet, h]

/-- Witness for C8 amended: registering `u1` over a registry holding `u1`
and `u2` replaces the `u1` channel and leaves `u2` untouched. -/
theorem register_overwrites_witness :
    ("u2" : String) ≠ "u1"
    ∧ registerChannel
        (fun x => if x = "u1" then some [Event.info "old"]
                  else if x = "u2" then some [Event.finished "f"] else none) "u1" "u1"
      = some []
    ∧ registerChannel
        (fun x => if x = "u1" then some [Event.info "old"]
                  else if x = "u2" then some [Event.finished "f"] else none) "u1" "u2"
      = (fun x => if x = "u1" then some [Event.info "old"]
                  else if x = "u2" then some [Event.finished "f"] else none) "u2" := by
  refine ⟨by decide, ?_, ?_⟩
  · exact (register_overwrites_and_preserves_others
      (fun x => if x = "u1" then some [Event.info "old"]
                else if x = "u2" then some [Event.finished "f"] else none)
      "u1" "u2" (by decide)).1
  · exact (register_overwrites_and_preserves_others
      (fun x => if x = "u1" then some [Event.info "old"]
                else if x = "u2" then some [Event.finished "f"] else none)
      "u1" "u2" (by decide)).2

/-- C10: no route ever removes a registry entry — after any single route
invocation a registered submission id is still registered; a stream request
for a registered id is accepted (never the 404 branch), even after its
`closed` event has been consumed and the queue is empty; and the stream
generator run on an empty queue never reaches a `closed` event — it blocks
forever in `q.get()` (`streamEvents [] = none`). -/
theorem registry_entries_never_removed (st : SysState) (id : String) (op : SysOp)
    (h : (st.queues id).isSome = true) :
    ((applyOp st op).queues id).isSome = true
    ∧ events_route st id = RouteOutcome.stream
    ∧ streamEvents [] = none := by
  refine ⟨?_, ?_, rfl⟩
  · cases op with
    | verifyOp team pinOk => exact h
    | uploadOp sess uid ar =>
      cases sess with
      | team t =>
        cases ar with
        | corrupt => exact h
        | ok members =>
          show ((registerChannel st.queues uid) id).isSome = true
          simp only [registerChannel, dictSet]
          split_ifs <;> simp [h]
      | empty => exact h
      | admin => exact h
    | resetOp t => exact h
    | streamOp id2 =>
      show ((match st.queues id2 with
        | none => st
        | some evs =>
            { st with queues := dictSet st.queues id2 (streamRemainder evs) }).queues id).isSome
        = true
      cases hq : st.queues id2 with
      | none => simpa using h
      | some evs =>
        simp only [dictSet]
        split_ifs <;> simp [h]
  · rcases hs : st.queues id with _ | q
    · rw [hs] at h; simp at h
    · simp [events_route, hs]

/-- Witness for C10: a registry holding the drained queue of `u1`; an
admin reset leaves `u1` registered, the stream route accepts it, and the
generator on the empty queue yields nothing. -/
theorem registry_entries_never_removed_witness :
    ((SysState.mk [] (fun _ => none)
        (fun x => if x = "u1" then some [] else none) []).queues "u1").isSome = true
    ∧ (((applyOp (SysState.mk [] (fun _ => none)
          (fun x => if x = "u1" then some [] else none) [])
          (SysOp.resetOp "teamX")).queues "u1").isSome = true
      ∧ events_route (SysState.mk [] (fun _ => none)
          (fun x => if x = "u1" then some [] else none) []) "u1"
        = RouteOutcome.stream
      ∧ streamEvents [] = none) :=
  ⟨rfl,
    registry_entries_never_removed
      (SysState.mk [] (fun _ => none)
        (fun x => if x = "u1" then some [] else none) [])
      "u1" (SysOp.resetOp "teamX") rfl⟩

end App
